/-
Verification of the document-chunking core of the FastAPI lecture service.

Shallow embedding of `app/service/document_service.py` and the request
validation of `app/models/schemas/document.py`.  Text is modelled as
`List Char`; Python integers are `Int`; Python list/str slicing, `str.find`,
`str.strip`, `str.split`, `re.split` and `"sep".join` are modelled by the
`py*` helpers below.  The `while` loops of the chunking strategies are
modelled with an explicit fuel parameter: `none` means the loop has not
terminated within `fuel` iterations, so `∀ fuel, loop fuel = none` states
non-termination of the source loop.
-/
import Mathlib

/-- Python whitespace predicate used by `str.split()` / `str.strip()`
(ASCII subset, which covers all texts considered here). -/
def isPySpace (c : Char) : Bool :=
  c == ' ' || c == '\t' || c == '\n' || c == '\r' || c == '\x0b' || c == '\x0c'

/-- Python `s.strip()`: remove leading and trailing whitespace. -/
def pyStrip (s : List Char) : List Char :=
  ((s.dropWhile isPySpace).reverse.dropWhile isPySpace).reverse

/-- Split a character list on maximal runs of characters satisfying `p`,
keeping the (possibly empty) fragments between runs.  This is Python's
`re.split('[c...]+', s)` for a character class. -/
def splitRuns (p : Char → Bool) : List Char → List (List Char)
  | [] => [[]]
  | c :: rest =>
    if p c then
      match rest with
      | [] => [] :: splitRuns p []
      | c' :: rest' =>
        if p c' then splitRuns p (c' :: rest')
        else [] :: splitRuns p (c' :: rest')
    else
      match splitRuns p rest with
      | [] => [[c]]
      | hd :: tl => (c :: hd) :: tl

/-- Python `text.split('\n\n')`: split on non-overlapping occurrences of the
two-character separator, scanning left to right. -/
def splitOnBlank : List Char → List (List Char)
  | [] => [[]]
  | '\n' :: '\n' :: rest => [] :: splitOnBlank rest
  | c :: rest =>
    match splitOnBlank rest with
    | [] => [[c]]
    | hd :: tl => (c :: hd) :: tl

/-- Python `text.split()` (no argument): whitespace-delimited words,
empties discarded. -/
def pySplitWs (s : List Char) : List (List Char) :=
  (splitRuns isPySpace s).filter (fun w => w ≠ [])

/-- Python slice `s[a:b]` (step 1) with Python's clamping of possibly
negative indices. -/
def pySlice {α : Type} (s : List α) (a b : Int) : List α :=
  let n : Int := s.length
  let lo := if a < 0 then max (n + a) 0 else min a n
  let hi := if b < 0 then max (n + b) 0 else min b n
  (s.take hi.toNat).drop lo.toNat

/-- Helper for `pyFind`: first index `≥ i` at which `needle` occurs. -/
def findAux (needle : List Char) : List Char → Nat → Option Nat
  | [], i => if needle.isPrefixOf ([] : List Char) then some i else none
  | c :: rest, i =>
    if needle.isPrefixOf (c :: rest) then some i else findAux needle rest (i + 1)

/-- Python `hay.find(needle)`: index of the first occurrence, `-1` if none. -/
def pyFind (hay needle : List Char) : Int :=
  match findAux needle hay 0 with
  | some i => (i : Int)
  | none => -1

/-- Python `sep.join(xs)`. -/
def pyJoin (sep : List Char) (xs : List (List Char)) : List Char :=
  List.intercalate sep xs

/-- A value stored in a chunk's metadata dict (`Dict[str, Any]` in the
source): a strategy name, a count, or an embedding vector. -/
inductive MetaVal : Type where
  | str (s : String)
  | nat (n : Nat)
  | vec (v : List Int)
deriving DecidableEq, Repr

/-- `DocumentChunk` of `app/models/schemas/document.py`. -/
structure DocumentChunk : Type where
  id : Nat
  content : List Char
  start_index : Int
  end_index : Int
  length : Nat
  metadata : List (String × MetaVal)
deriving DecidableEq, Repr

/-- Python dict assignment `m[k] = v` on an insertion-ordered dict:
update the existing key in place, else append. -/
def setMeta : List (String × MetaVal) → String → MetaVal → List (String × MetaVal)
  | [], k, v => [(k, v)]
  | (k', v') :: rest, k, v =>
    if k' = k then (k, v) :: rest else (k', v') :: setMeta rest k v

/-- Whether a chunk's metadata carries an "embedding" key. -/
def hasEmbedding (c : DocumentChunk) : Bool :=
  c.metadata.any (fun p => p.1 == "embedding")

/-- `_chunk_by_character` (document_service.py lines 55-81): the loop body.
`start = end - overlap` follows the source; the source's trailing
`if start >= len(text): break` is the same test as the `while` guard of the
next iteration, so the loop is modelled by the guard alone. -/
def charLoop (text : List Char) (chunkSize overlap : Int) :
    Nat → Int → Nat → Option (List DocumentChunk)
  | 0, _, _ => none
  | fuel + 1, start, chunkId =>
    if start < (text.length : Int) then
      let e := min (start + chunkSize) (text.length : Int)
      let content := pySlice text start e
      let chunk : DocumentChunk :=
        { id := chunkId, content := content, start_index := start, end_index := e,
          length := content.length,
          metadata := [("strategy", MetaVal.str "character")] }
      (charLoop text chunkSize overlap fuel (e - overlap) (chunkId + 1)).map
        (fun cs => chunk :: cs)
    else
      some []

/-- `_chunk_by_character`. -/
def chunkByCharacter (text : List Char) (chunkSize overlap : Int) (fuel : Nat) :
    Option (List DocumentChunk) :=
  charLoop text chunkSize overlap fuel 0 0

/-- `_chunk_by_token` (lines 83-115): the loop body.  As in the source,
`start_pos` is `text.find(chunk_words[0]) if chunk_words else 0`. -/
def tokenLoop (text : List Char) (words : List (List Char)) (chunkSize overlap : Int) :
    Nat → Int → Nat → Option (List DocumentChunk)
  | 0, _, _ => none
  | fuel + 1, startIdx, chunkId =>
    if startIdx < (words.length : Int) then
      let endIdx := min (startIdx + chunkSize) (words.length : Int)
      let chunkWords := pySlice words startIdx endIdx
      let content := pyJoin [' '] chunkWords
      let startPos : Int := if chunkWords.isEmpty then 0 else pyFind text (chunkWords.headD [])
      let endPos := startPos + (content.length : Int)
      let chunk : DocumentChunk :=
        { id := chunkId, content := content, start_index := startPos, end_index := endPos,
          length := content.length,
          metadata := [("strategy", MetaVal.str "token"),
                       ("word_count", MetaVal.nat chunkWords.length)] }
      (tokenLoop text words chunkSize overlap fuel (endIdx - overlap) (chunkId + 1)).map
        (fun cs => chunk :: cs)
    else
      some []

/-- `_chunk_by_token`. -/
def chunkByToken (text : List Char) (chunkSize overlap : Int) (fuel : Nat) :
    Option (List DocumentChunk) :=
  tokenLoop text (pySplitWs text) chunkSize overlap fuel 0 0

/-- The inner accumulation loop shared by `_chunk_by_sentence` (lines 133-140)
and `_chunk_by_paragraph` (lines 183-190): greedily take units while the
running character total stays under `chunkSize`. -/
def greedyCollect (chunkSize : Int) : List (List Char) → Int → List (List Char)
  | [], _ => []
  | s :: rest, cur =>
    if cur < chunkSize then
      if cur + (s.length : Int) ≤ chunkSize then
        s :: greedyCollect chunkSize rest (cur + (s.length : Int))
      else []
    else []

/-- The overlap step of `_chunk_by_sentence` (line 165):
`start = max(start + 1, end - overlap)`. -/
def nextSentenceStart (start e overlap : Int) : Int :=
  max (start + 1) (e - overlap)

/-- The overlap step of `_chunk_by_paragraph` (line 213):
`start = max(start + 1, end - max(1, overlap // 2))` (`//` is floor division). -/
def nextParagraphStart (start e overlap : Int) : Int :=
  max (start + 1) (e - max 1 (Int.fdiv overlap 2))

/-- `_chunk_by_sentence` (lines 117-167): the outer loop over the sentence
list.  `sentences[end]` of the forced branch is the head of
`sentences.drop e0.toNat` (with `e0 = start` there). -/
def sentenceLoop (text : List Char) (sentences : List (List Char))
    (chunkSize overlap : Int) : Nat → Int → Nat → Option (List DocumentChunk)
  | 0, _, _ => none
  | fuel + 1, start, chunkId =>
    if start < (sentences.length : Int) then
      let collected := greedyCollect chunkSize (sentences.drop start.toNat) 0
      let e0 : Int := start + (collected.length : Int)
      let forced := collected.isEmpty && decide (e0 < (sentences.length : Int))
      let chunkSentences :=
        if forced then [(sentences.drop e0.toNat).headD []] else collected
      let e : Int := if forced then e0 + 1 else e0
      if chunkSentences.isEmpty then
        sentenceLoop text sentences chunkSize overlap fuel
          (nextSentenceStart start e overlap) chunkId
      else
        let content := pyJoin ['.', ' '] chunkSentences
        let startPos := pyFind text (chunkSentences.headD [])
        let endPos := startPos + (content.length : Int)
        let chunk : DocumentChunk :=
          { id := chunkId, content := content, start_index := startPos, end_index := endPos,
            length := content.length,
            metadata := [("strategy", MetaVal.str "sentence"),
                         ("sentence_count", MetaVal.nat chunkSentences.length)] }
        (sentenceLoop text sentences chunkSize overlap fuel
            (nextSentenceStart start e overlap) (chunkId + 1)).map
          (fun cs => chunk :: cs)
    else
      some []

/-- Sentence-terminal characters of `re.split(r'[.!?]+', text)`. -/
def isSentencePunct (c : Char) : Bool :=
  c == '.' || c == '!' || c == '?'

/-- The sentence list of `_chunk_by_sentence` (lines 120-121). -/
def sentencesOf (text : List Char) : List (List Char) :=
  ((splitRuns isSentencePunct text).map pyStrip).filter (fun s => s ≠ [])

/-- `_chunk_by_sentence`. -/
def chunkBySentence (text : List Char) (chunkSize overlap : Int) (fuel : Nat) :
    Option (List DocumentChunk) :=
  sentenceLoop text (sentencesOf text) chunkSize overlap fuel 0 0

/-- `_chunk_by_paragraph` (lines 169-215): same shape as the sentence loop
with blank-line units, a `"\n\n"` joiner and the halved overlap step. -/
def paragraphLoop (text : List Char) (paragraphs : List (List Char))
    (chunkSize overlap : Int) : Nat → Int → Nat → Option (List DocumentChunk)
  | 0, _, _ => none
  | fuel + 1, start, chunkId =>
    if start < (paragraphs.length : Int) then
      let collected := greedyCollect chunkSize (paragraphs.drop start.toNat) 0
      let e0 : Int := start + (collected.length : Int)
      let forced := collected.isEmpty && decide (e0 < (paragraphs.length : Int))
      let chunkParagraphs :=
        if forced then [(paragraphs.drop e0.toNat).headD []] else collected
      let e : Int := if forced then e0 + 1 else e0
      if chunkParagraphs.isEmpty then
        paragraphLoop text paragraphs chunkSize overlap fuel
          (nextParagraphStart start e overlap) chunkId
      else
        let content := pyJoin ['\n', '\n'] chunkParagraphs
        let startPos := pyFind text (chunkParagraphs.headD [])
        let endPos := startPos + (content.length : Int)
        let chunk : DocumentChunk :=
          { id := chunkId, content := content, start_index := startPos, end_index := endPos,
            length := content.length,
            metadata := [("strategy", MetaVal.str "paragraph"),
                         ("paragraph_count", MetaVal.nat chunkParagraphs.length)] }
        (paragraphLoop text paragraphs chunkSize overlap fuel
            (nextParagraphStart start e overlap) (chunkId + 1)).map
          (fun cs => chunk :: cs)
    else
      some []

/-- The paragraph list of `_chunk_by_paragraph` (lines 171-172). -/
def paragraphsOf (text : List Char) : List (List Char) :=
  ((splitOnBlank text).map pyStrip).filter (fun p => p ≠ [])

/-- `_chunk_by_paragraph`. -/
def chunkByParagraph (text : List Char) (chunkSize overlap : Int) (fuel : Nat) :
    Option (List DocumentChunk) :=
  paragraphLoop text (paragraphsOf text) chunkSize overlap fuel 0 0

/-- `_chunk_by_semantic` (lines 217-220): a direct call to the sentence
strategy. -/
def chunkBySemantic (text : List Char) (chunkSize overlap : Int) (fuel : Nat) :
    Option (List DocumentChunk) :=
  chunkBySentence text chunkSize overlap fuel

/-- `ChunkStrategy` of `app/models/schemas/document.py`. -/
inductive ChunkStrategy : Type where
  | character
  | token
  | sentence
  | paragraph
  | semantic
deriving DecidableEq, Repr

/-- The strategy dispatch of `chunk_document` (lines 34-43). -/
def chunkDocumentChunks (strategy : ChunkStrategy) (text : List Char)
    (chunkSize overlap : Int) (fuel : Nat) : Option (List DocumentChunk) :=
  match strategy with
  | .character => chunkByCharacter text chunkSize overlap fuel
  | .token => chunkByToken text chunkSize overlap fuel
  | .sentence => chunkBySentence text chunkSize overlap fuel
  | .paragraph => chunkByParagraph text chunkSize overlap fuel
  | .semantic => chunkBySemantic text chunkSize overlap fuel

/-- `DocumentChunkResponse` of `app/models/schemas/document.py`.
`processing_time` is modelled in integer clock ticks. -/
structure DocumentChunkResponse : Type where
  chunks : List DocumentChunk
  total_chunks : Nat
  original_length : Nat
  strategy_used : ChunkStrategy
  processing_time : Int
deriving DecidableEq, Repr

/-- `chunk_document` (lines 27-53).  The two `time.time()` readings taken
inside the function (lines 29 and 45) are passed explicitly as `t0`, `t1`;
`processing_time = t1 - t0` is computed inside, as in the source. -/
def chunkDocument (strategy : ChunkStrategy) (text : List Char)
    (chunkSize overlap : Int) (fuel : Nat) (t0 t1 : Int) :
    Option DocumentChunkResponse :=
  (chunkDocumentChunks strategy text chunkSize overlap fuel).map
    (fun cs =>
      { chunks := cs, total_chunks := cs.length, original_length := text.length,
        strategy_used := strategy, processing_time := t1 - t0 })

/-- The pydantic field validation of `DocumentChunkRequest`
(schemas/document.py lines 14-21): `text` has `min_length=1`,
`chunk_size` has `ge=100, le=8000`, `chunk_overlap` has `ge=0, le=1000`.
No other constraint is declared. -/
def documentChunkRequestValid (textLen : Nat) (chunkSize chunkOverlap : Int) : Bool :=
  decide (1 ≤ textLen) && decide (100 ≤ chunkSize) && decide (chunkSize ≤ 8000) &&
    decide (0 ≤ chunkOverlap) && decide (chunkOverlap ≤ 1000)

/-- Step 3 of `chunk_and_embed` (lines 247-248):
`for i, chunk in enumerate(chunks): chunk.metadata["embedding"] = embeddings[i]`.
The first component is the chunk list as mutated when the loop stops; the
second is `false` when `embeddings[i]` raised `IndexError` (vector list
exhausted before the chunk list). -/
def attachEmbeddings : List DocumentChunk → List (List Int) →
    List DocumentChunk × Bool
  | [], _ => ([], true)
  | c :: cs, [] => (c :: cs, false)
  | c :: cs, v :: vs =>
    let r := attachEmbeddings cs vs
    ({ c with metadata := setMeta c.metadata "embedding" (MetaVal.vec v) } :: r.1, r.2)

/-! Concrete inputs used by the scenario theorems. -/

/-- A ten-character text, as in the spec's character-strategy scenario. -/
def str10 : List Char := "abcdefghij".data

/-- A three-character text with an interior sentence terminator. -/
def textAB : List Char := "A!B".data

/-- A two-character text. -/
def textab : List Char := "ab".data

/-- A 250-character text, long enough for three character chunks of size 100. -/
def text250 : List Char := List.replicate 250 'a'

/-! Single steps of the character loop at the concrete states visited by the
scenario runs; each is definitional. -/

lemma charLoop_s100_o1_step0 (f : Nat) (i : Nat) :
    charLoop str10 100 1 (f + 1) 0 i =
      (charLoop str10 100 1 f 9 (i + 1)).map
        (fun cs =>
          { id := i, content := str10, start_index := 0, end_index := 10, length := 10,
            metadata := [("strategy", MetaVal.str "character")] } :: cs) := rfl

lemma charLoop_s100_o1_step9 (f : Nat) (i : Nat) :
    charLoop str10 100 1 (f + 1) 9 i =
      (charLoop str10 100 1 f 9 (i + 1)).map
        (fun cs =>
          { id := i, content := ['j'], start_index := 9, end_index := 10, length := 1,
            metadata := [("strategy", MetaVal.str "character")] } :: cs) := rfl

lemma charLoop_s100_o1_stuck : ∀ (f : Nat) (i : Nat), charLoop str10 100 1 f 9 i = none := by
  intro f
  induction f with
  | zero => intro i; rfl
  | succ f ih =>
    intro i
    rw [charLoop_s100_o1_step9, ih]
    rfl

/-- C1: the claim says the character loop terminates for every configuration
with `0 ≤ chunk_overlap < chunk_size`.  The code does not: on the non-empty
ten-character text with the schema-valid configuration `chunk_size = 100`,
`chunk_overlap = 1` (so `0 ≤ 1 < 100`), the loop reaches `start = 9`, where
`end = 10` and the next start is `10 - 1 = 9` again, so no fuel bound
suffices: the loop never terminates. -/
theorem character_chunking_diverges_with_positive_overlap (fuel : Nat) :
    str10 ≠ [] ∧ documentChunkRequestValid str10.length 100 1 = true ∧
      chunkByCharacter str10 100 1 fuel = none := by
  refine ⟨by decide, by decide, ?_⟩
  cases fuel with
  | zero => rfl
  | succ f =>
    show charLoop str10 100 1 (f + 1) 0 0 = none
    rw [charLoop_s100_o1_step0, charLoop_s100_o1_stuck]
    rfl

lemma charLoop_s4_o1_step0 (f : Nat) (i : Nat) :
    charLoop str10 4 1 (f + 1) 0 i =
      (charLoop str10 4 1 f 3 (i + 1)).map
        (fun cs =>
          { id := i, content := ['a', 'b', 'c', 'd'], start_index := 0, end_index := 4,
            length := 4, metadata := [("strategy", MetaVal.str "character")] } :: cs) := rfl

lemma charLoop_s4_o1_step3 (f : Nat) (i : Nat) :
    charLoop str10 4 1 (f + 1) 3 i =
      (charLoop str10 4 1 f 6 (i + 1)).map
        (fun cs =>
          { id := i, content := ['d', 'e', 'f', 'g'], start_index := 3, end_index := 7,
            length := 4, metadata := [("strategy", MetaVal.str "character")] } :: cs) := rfl

lemma charLoop_s4_o1_step6 (f : Nat) (i : Nat) :
    charLoop str10 4 1 (f + 1) 6 i =
      (charLoop str10 4 1 f 9 (i + 1)).map
        (fun cs =>
          { id := i, content := ['g', 'h', 'i', 'j'], start_index := 6, end_index := 10,
            length := 4, metadata := [("strategy", MetaVal.str "character")] } :: cs) := rfl

lemma charLoop_s4_o1_step9 (f : Nat) (i : Nat) :
    charLoop str10 4 1 (f + 1) 9 i =
      (charLoop str10 4 1 f 9 (i + 1)).map
        (fun cs =>
          { id := i, content := ['j'], start_index := 9, end_index := 10, length := 1,
            metadata := [("strategy", MetaVal.str "character")] } :: cs) := rfl

lemma charLoop_s4_o1_stuck : ∀ (f : Nat) (i : Nat), charLoop str10 4 1 f 9 i = none := by
  intro f
  induction f with
  | zero => intro i; rfl
  | succ f ih =>
    intro i
    rw [charLoop_s4_o1_step9, ih]
    rfl

lemma charLoop_s4_o1_none6 (f : Nat) (i : Nat) : charLoop str10 4 1 f 6 i = none := by
  cases f with
  | zero => rfl
  | succ f => rw [charLoop_s4_o1_step6, charLoop_s4_o1_stuck]; rfl

lemma charLoop_s4_o1_none3 (f : Nat) (i : Nat) : charLoop str10 4 1 f 3 i = none := by
  cases f with
  | zero => rfl
  | succ f => rw [charLoop_s4_o1_step3, charLoop_s4_o1_none6]; rfl

/-- C5: the spec's scenario expects exactly three chunks [0,4), [3,7), [6,10)
for text length 10, `chunk_size = 4`, `chunk_overlap = 1`.  The code instead
visits starts 0, 3, 6, 9 and then sticks at 9 (`end = 10`, next start
`10 - 1 = 9`), emitting the chunk [9,10) forever: the call never returns,
for any fuel bound. -/
theorem character_scenario_size4_overlap1_diverges (fuel : Nat) :
    chunkByCharacter str10 4 1 fuel = none := by
  cases fuel with
  | zero => rfl
  | succ f =>
    show charLoop str10 4 1 (f + 1) 0 0 = none
    rw [charLoop_s4_o1_step0, charLoop_s4_o1_none3]
    rfl

lemma charLoop_s100_o100_step0 (f : Nat) (i : Nat) :
    charLoop str10 100 100 (f + 1) 0 i =
      (charLoop str10 100 100 f (-90) (i + 1)).map
        (fun cs =>
          { id := i, content := str10, start_index := 0, end_index := 10, length := 10,
            metadata := [("strategy", MetaVal.str "character")] } :: cs) := rfl

lemma charLoop_s100_o100_stepNeg (f : Nat) (i : Nat) :
    charLoop str10 100 100 (f + 1) (-90) i =
      (charLoop str10 100 100 f (-90) (i + 1)).map
        (fun cs =>
          { id := i, content := str10, start_index := -90, end_index := 10, length := 10,
            metadata := [("strategy", MetaVal.str "character")] } :: cs) := rfl

lemma charLoop_s100_o100_stuck : ∀ (f : Nat) (i : Nat),
    charLoop str10 100 100 f (-90) i = none := by
  intro f
  induction f with
  | zero => intro i; rfl
  | succ f ih =>
    intro i
    rw [charLoop_s100_o100_stepNeg, ih]
    rfl

/-- C2 counterexample: a request whose `chunk_overlap` (100) is greater than
or equal to its `chunk_size` (100) passes the pydantic field validation of
`DocumentChunkRequest` — it is not rejected, because the schema only bounds
each field separately. -/
theorem degenerate_overlap_request_accepted :
    documentChunkRequestValid str10.length 100 100 = true ∧ (100 : Int) ≤ 100 := by
  exact ⟨by decide, le_refl 100⟩

/-- C2 amended: a chunking request with `chunk_overlap ≥ chunk_size` is
accepted whenever its fields are in range (text non-empty, `chunk_size` in
[100, 8000], `chunk_overlap` in [0, 1000]) — no overlap-versus-size check
exists — and the character strategy on such a degenerate configuration then
runs without terminating (shown for size 100, overlap 100 on the
ten-character text). -/
theorem degenerate_overlap_not_rejected_and_loops (n : Nat) (s o : Int) (fuel : Nat)
    (hn : 1 ≤ n) (hs : 100 ≤ s) (hs8 : s ≤ 8000) (hso : s ≤ o) (ho : o ≤ 1000) :
    documentChunkRequestValid n s o = true ∧ chunkByCharacter str10 100 100 fuel = none := by
  constructor
  · simp only [documentChunkRequestValid, Bool.and_eq_true, decide_eq_true_eq]
    omega
  · cases fuel with
    | zero => rfl
    | succ f =>
      show charLoop str10 100 100 (f + 1) 0 0 = none
      rw [charLoop_s100_o100_step0, charLoop_s100_o100_stuck]
      rfl

/-- Witness for the C2 amended theorem at the concrete request
(text length 10, `chunk_size = 100`, `chunk_overlap = 100`, fuel 7). -/
theorem degenerate_overlap_not_rejected_witness :
    documentChunkRequestValid 10 100 100 = true ∧
      chunkByCharacter str10 100 100 7 = none :=
  degenerate_overlap_not_rejected_and_loops 10 100 100 7 (by omega) (by omega) (by omega)
    (by omega) (by omega)

/-- C7: `_chunk_by_semantic` returns exactly the result of
`_chunk_by_sentence` on the same inputs — the semantic strategy is a direct
alias of the sentence strategy. -/
theorem semantic_equals_sentence (text : List Char) (chunkSize overlap : Int) (fuel : Nat) :
    chunkDocumentChunks ChunkStrategy.semantic text chunkSize overlap fuel =
      chunkDocumentChunks ChunkStrategy.sentence text chunkSize overlap fuel := rfl

/-- C9: the sentence strategy's overlap step `max(start + 1, end - overlap)`
equals `start + max(1, (end - start) - overlap)`, and in particular the
starting sentence index strictly increases on every iteration, even when
`overlap ≥ end - start`. -/
theorem sentence_overlap_step_formula (start e overlap : Int) :
    nextSentenceStart start e overlap = start + max 1 (e - start - overlap) ∧
      start < nextSentenceStart start e overlap := by
  unfold nextSentenceStart
  omega

/-- C6 counterexample: two runs of `chunk_document` on the same text and
configuration but with different wall-clock readings produce different
`DocumentChunkResponse` values — `processing_time` is computed inside
`chunk_document` from the clock, so the full response is not identical
across runs. -/
theorem chunk_document_processing_time_differs :
    chunkDocument ChunkStrategy.character textab 100 0 2 0 1 ≠
      chunkDocument ChunkStrategy.character textab 100 0 2 0 2 := by decide

/-- C6 amended: running `chunk_document` twice on the same text and
configuration yields the same chunks, total_chunks, original_length and
strategy_used — the chunk computation is a pure function of text and
configuration — but `processing_time` is measured inside `chunk_document`
from wall-clock readings (lines 29 and 45) and differs when the readings
differ. -/
theorem chunk_document_deterministic_apart_from_time (strategy : ChunkStrategy)
    (text : List Char) (chunkSize overlap : Int) (fuel : Nat)
    (t0 t1 t0' t1' : Int) (r r' : DocumentChunkResponse)
    (h : chunkDocument strategy text chunkSize overlap fuel t0 t1 = some r)
    (h' : chunkDocument strategy text chunkSize overlap fuel t0' t1' = some r') :
    r.chunks = r'.chunks ∧ r.total_chunks = r'.total_chunks ∧
      r.original_length = r'.original_length ∧ r.strategy_used = r'.strategy_used := by
  unfold chunkDocument at h h'
  cases hc : chunkDocumentChunks strategy text chunkSize overlap fuel with
  | none => rw [hc] at h; simp at h
  | some cs =>
    rw [hc] at h h'
    simp only [Option.map_some', Option.some.injEq] at h h'
    subst h
    subst h'
    exact ⟨rfl, rfl, rfl, rfl⟩

/-- The response of the first run used in the C6 witness. -/
def c6run1 : DocumentChunkResponse :=
  { chunks := [{ id := 0, content := textab, start_index := 0, end_index := 2, length := 2,
                 metadata := [("strategy", MetaVal.str "character")] }],
    total_chunks := 1, original_length := 2, strategy_used := ChunkStrategy.character,
    processing_time := 1 }

/-- The response of the second run used in the C6 witness. -/
def c6run2 : DocumentChunkResponse :=
  { chunks := [{ id := 0, content := textab, start_index := 0, end_index := 2, length := 2,
                 metadata := [("strategy", MetaVal.str "character")] }],
    total_chunks := 1, original_length := 2, strategy_used := ChunkStrategy.character,
    processing_time := 2 }

/-- Witness for the C6 amended theorem at a concrete pair of runs. -/
theorem chunk_document_deterministic_witness :
    c6run1.chunks = c6run2.chunks ∧ c6run1.total_chunks = c6run2.total_chunks ∧
      c6run1.original_length = c6run2.original_length ∧
      c6run1.strategy_used = c6run2.strategy_used :=
  chunk_document_deterministic_apart_from_time ChunkStrategy.character textab 100 0 2
    0 1 0 2 c6run1 c6run2 (by decide) (by decide)

set_option maxRecDepth 40000 in
/-- C3 counterexample: a chunk-and-embed run over the 250-character text with
the valid configuration size 100, overlap 0 yields 3 chunks; attaching an
embedding result of only 2 vectors fails (the loop hits `embeddings[2]`,
an `IndexError`), yet some chunk does end up with an embedding attached to
its metadata — the state is not left unchanged on error. -/
theorem embedding_mismatch_partially_annotates :
    (chunkDocumentChunks ChunkStrategy.character text250 100 0 4).isSome = true ∧
      ((chunkDocumentChunks ChunkStrategy.character text250 100 0 4).getD []).length = 3 ∧
      (attachEmbeddings ((chunkDocumentChunks ChunkStrategy.character text250 100 0 4).getD [])
          [[1], [2]]).2 = false ∧
      ((attachEmbeddings ((chunkDocumentChunks ChunkStrategy.character text250 100 0 4).getD [])
          [[1], [2]]).1.any hasEmbedding) = true := by decide

lemma setMeta_embedding_any (m : List (String × MetaVal)) (v : MetaVal) :
    (setMeta m "embedding" v).any (fun p => p.1 == "embedding") = true := by
  induction m with
  | nil => simp [setMeta]
  | cons kv rest ih =>
    obtain ⟨k', v'⟩ := kv
    by_cases hk : k' = "embedding"
    · simp [setMeta, hk]
    · simp [setMeta, hk, ih]

/-- C3 amended: in a chunk-and-embed run over N chunks, if the embedding call
returns fewer vectors than N, the annotation loop fails with an
index-out-of-range error (the source has no dedicated IntegrityError and no
count check), and by then the chunks at positions below the returned vector
count already have embeddings attached to their metadata, while the later
chunks are left unchanged — the failure is fatal but the state is partially
mutated, not unchanged. -/
theorem embedding_shortfall_index_error_partial_state (chunks : List DocumentChunk)
    (embs : List (List Int)) (h : embs.length < chunks.length) :
    (attachEmbeddings chunks embs).2 = false ∧
      (attachEmbeddings chunks embs).1.length = chunks.length ∧
      ((attachEmbeddings chunks embs).1.take embs.length).all hasEmbedding = true ∧
      (attachEmbeddings chunks embs).1.drop embs.length = chunks.drop embs.length := by
  induction chunks generalizing embs with
  | nil => simp at h
  | cons c cs ih =>
    cases embs with
    | nil => simp [attachEmbeddings]
    | cons v vs =>
      have h' : vs.length < cs.length := by simp at h; omega
      obtain ⟨h1, h2, h3, h4⟩ := ih vs h'
      refine ⟨h1, ?_, ?_, ?_⟩
      · simp [attachEmbeddings, h2]
      · simp only [attachEmbeddings, List.length_cons, List.take_succ_cons, List.all_cons,
          Bool.and_eq_true]
        exact ⟨setMeta_embedding_any c.metadata (MetaVal.vec v), h3⟩
      · simp only [attachEmbeddings, List.length_cons, List.drop_succ_cons]
        exact h4

/-- A first chunk used by the C3 witness. -/
def c3chunkX : DocumentChunk :=
  { id := 0, content := ['x'], start_index := 0, end_index := 1, length := 1,
    metadata := [("strategy", MetaVal.str "character")] }

/-- A second chunk used by the C3 witness. -/
def c3chunkY : DocumentChunk :=
  { id := 1, content := ['y'], start_index := 1, end_index := 2, length := 1,
    metadata := [("strategy", MetaVal.str "character")] }

/-- Witness for the C3 amended theorem: two chunks, one vector. -/
theorem embedding_shortfall_witness :
    (attachEmbeddings [c3chunkX, c3chunkY] [[7]]).2 = false ∧
      (attachEmbeddings [c3chunkX, c3chunkY] [[7]]).1.length = [c3chunkX, c3chunkY].length ∧
      ((attachEmbeddings [c3chunkX, c3chunkY] [[7]]).1.take 1).all hasEmbedding = true ∧
      (attachEmbeddings [c3chunkX, c3chunkY] [[7]]).1.drop 1 = [c3chunkX, c3chunkY].drop 1 :=
  embedding_shortfall_index_error_partial_state [c3chunkX, c3chunkY] [[7]] (by decide)

/-- The single chunk produced by the sentence strategy on the text "A!B". -/
def c4sentChunk : DocumentChunk :=
  { id := 0, content := ['A', '.', ' ', 'B'], start_index := 0, end_index := 4, length := 4,
    metadata := [("strategy", MetaVal.str "sentence"), ("sentence_count", MetaVal.nat 2)] }

/-- C4 counterexample: on the non-empty text "A!B" (length 3) with the valid
configuration size 100, overlap 0, the sentence strategy rejoins the
fragments "A" and "B" with ". ", producing the single (hence final) chunk
"A. B" whose `end_index` is 4 — strictly greater than the text length. -/
theorem sentence_end_index_exceeds_length :
    documentChunkRequestValid textAB.length 100 0 = true ∧
      chunkDocumentChunks ChunkStrategy.sentence textAB 100 0 3 = some [c4sentChunk] ∧
      (textAB.length : Int) < c4sentChunk.end_index := by decide

lemma charLoop_end_le (text : List Char) (chunkSize overlap : Int) :
    ∀ (fuel : Nat) (start : Int) (i : Nat) (cs : List DocumentChunk),
      charLoop text chunkSize overlap fuel start i = some cs →
      ∀ c ∈ cs, c.end_index ≤ (text.length : Int) := by
  intro fuel
  induction fuel with
  | zero => intro start i cs h; exact absurd h (by simp [charLoop])
  | succ f ih =>
    intro start i cs h
    simp only [charLoop] at h
    split at h
    · obtain ⟨cs', hcs', rfl⟩ := Option.map_eq_some'.mp h
      intro c hc
      rcases List.mem_cons.mp hc with hc | hc
      · subst hc; exact min_le_right _ _
      · exact ih _ _ _ hcs' c hc
    · obtain rfl : ([] : List DocumentChunk) = cs := by simpa using h
      intro c hc
      simp at hc

/-- C4 amended: for the character strategy every produced chunk's `end_index`
is `min(start + chunk_size, len(text))` and so never exceeds the text
length; for the reassembling strategies (token, sentence, paragraph and the
semantic alias) the `end_index` is a find-position plus the rejoined
content's length and can exceed the text length, as the counterexample
shows. -/
theorem character_end_index_within_length (text : List Char) (chunkSize overlap : Int)
    (fuel : Nat) (cs : List DocumentChunk) (c : DocumentChunk)
    (h : chunkByCharacter text chunkSize overlap fuel = some cs) (hc : c ∈ cs) :
    c.end_index ≤ (text.length : Int) :=
  charLoop_end_le text chunkSize overlap fuel 0 0 cs h c hc

/-- The single chunk produced by the character strategy on the text "ab". -/
def c4charChunk : DocumentChunk :=
  { id := 0, content := textab, start_index := 0, end_index := 2, length := 2,
    metadata := [("strategy", MetaVal.str "character")] }

/-- Witness for the C4 amended theorem at a concrete terminating run. -/
theorem character_end_index_within_length_witness :
    c4charChunk.end_index ≤ (textab.length : Int) :=
  character_end_index_within_length textab 100 0 2 [c4charChunk] c4charChunk
    (by decide) (by decide)

lemma charLoop_ids (text : List Char) (chunkSize overlap : Int) :
    ∀ (fuel : Nat) (start : Int) (i : Nat) (cs : List DocumentChunk),
      charLoop text chunkSize overlap fuel start i = some cs →
      cs.map DocumentChunk.id = List.range' i cs.length := by
  intro fuel
  induction fuel with
  | zero => intro start i cs h; exact absurd h (by simp [charLoop])
  | succ f ih =>
    intro start i cs h
    simp only [charLoop] at h
    split at h
    · obtain ⟨cs', hcs', rfl⟩ := Option.map_eq_some'.mp h
      simp only [List.map_cons, List.length_cons]
      rw [ih _ _ _ hcs']
      rfl
    · obtain rfl : ([] : List DocumentChunk) = cs := by simpa using h
      rfl

lemma tokenLoop_ids (text : List Char) (words : List (List Char)) (chunkSize overlap : Int) :
    ∀ (fuel : Nat) (start : Int) (i : Nat) (cs : List DocumentChunk),
      tokenLoop text words chunkSize overlap fuel start i = some cs →
      cs.map DocumentChunk.id = List.range' i cs.length := by
  intro fuel
  induction fuel with
  | zero => intro start i cs h; exact absurd h (by simp [tokenLoop])
  | succ f ih =>
    intro start i cs h
    simp only [tokenLoop] at h
    split at h
    · obtain ⟨cs', hcs', rfl⟩ := Option.map_eq_some'.mp h
      simp only [List.map_cons, List.length_cons]
      rw [ih _ _ _ hcs']
      rfl
    · obtain rfl : ([] : List DocumentChunk) = cs := by simpa using h
      rfl

lemma sentenceLoop_ids (text : List Char) (sents : List (List Char))
    (chunkSize overlap : Int) :
    ∀ (fuel : Nat) (start : Int) (i : Nat) (cs : List DocumentChunk),
      sentenceLoop text sents chunkSize overlap fuel start i = some cs →
      cs.map DocumentChunk.id = List.range' i cs.length := by
  intro fuel
  induction fuel with
  | zero => intro start i cs h; exact absurd h (by simp [sentenceLoop])
  | succ f ih =>
    intro start i cs h
    simp only [sentenceLoop] at h
    split at h
    · split at h
      · split at h
        · exact ih _ _ _ h
        · obtain ⟨cs', hcs', rfl⟩ := Option.map_eq_some'.mp h
          simp only [List.map_cons, List.length_cons]
          rw [ih _ _ _ hcs']
          rfl
      · split at h
        · exact ih _ _ _ h
        · obtain ⟨cs', hcs', rfl⟩ := Option.map_eq_some'.mp h
          simp only [List.map_cons, List.length_cons]
          rw [ih _ _ _ hcs']
          rfl
    · obtain rfl : ([] : List DocumentChunk) = cs := by simpa using h
      rfl

lemma paragraphLoop_ids (text : List Char) (paras : List (List Char))
    (chunkSize overlap : Int) :
    ∀ (fuel : Nat) (start : Int) (i : Nat) (cs : List DocumentChunk),
      paragraphLoop text paras chunkSize overlap fuel start i = some cs →
      cs.map DocumentChunk.id = List.range' i cs.length := by
  intro fuel
  induction fuel with
  | zero => intro start i cs h; exact absurd h (by simp [paragraphLoop])
  | succ f ih =>
    intro start i cs h
    simp only [paragraphLoop] at h
    split at h
    · split at h
      · split at h
        · exact ih _ _ _ h
        · obtain ⟨cs', hcs', rfl⟩ := Option.map_eq_some'.mp h
          simp only [List.map_cons, List.length_cons]
          rw [ih _ _ _ hcs']
          rfl
      · split at h
        · exact ih _ _ _ h
        · obtain ⟨cs', hcs', rfl⟩ := Option.map_eq_some'.mp h
          simp only [List.map_cons, List.length_cons]
          rw [ih _ _ _ hcs']
          rfl
    · obtain rfl : ([] : List DocumentChunk) = cs := by simpa using h
      rfl

/-- C8: for every strategy, every configuration and every text, whenever the
chunking run returns a chunk sequence, the ids of that sequence form the
dense zero-based sequence 0..N-1 in order, with no gaps and no repeats. -/
theorem chunk_ids_dense_zero_based (strategy : ChunkStrategy) (text : List Char)
    (chunkSize overlap : Int) (fuel : Nat) (cs : List DocumentChunk)
    (h : chunkDocumentChunks strategy text chunkSize overlap fuel = some cs) :
    cs.map DocumentChunk.id = List.range cs.length := by
  rw [List.range_eq_range']
  cases strategy with
  | character => exact charLoop_ids text chunkSize overlap fuel 0 0 cs h
  | token => exact tokenLoop_ids text (pySplitWs text) chunkSize overlap fuel 0 0 cs h
  | sentence => exact sentenceLoop_ids text (sentencesOf text) chunkSize overlap fuel 0 0 cs h
  | paragraph => exact paragraphLoop_ids text (paragraphsOf text) chunkSize overlap fuel 0 0 cs h
  | semantic => exact sentenceLoop_ids text (sentencesOf text) chunkSize overlap fuel 0 0 cs h

/-- The single chunk produced by the character strategy on the text "xy". -/
def c8wChunk : DocumentChunk :=
  { id := 0, content := ['x', 'y'], start_index := 0, end_index := 2, length := 2,
    metadata := [("strategy", MetaVal.str "character")] }

/-- Witness for C8 at a concrete terminating character run. -/
theorem chunk_ids_dense_witness :
    [c8wChunk].map DocumentChunk.id = List.range ([c8wChunk].length) :=
  chunk_ids_dense_zero_based ChunkStrategy.character ['x', 'y'] 100 0 2 [c8wChunk]
    (by decide)

lemma pySlice_nonneg {α : Type} (xs : List α) (a b : Int) (ha : 0 ≤ a) (hb : 0 ≤ b) :
    pySlice xs a b = (xs.take b.toNat).drop a.toNat := by
  unfold pySlice
  dsimp only
  rw [if_neg (by omega), if_neg (by omega)]
  have hbt : (min b (xs.length : Int)).toNat = min b.toNat xs.length := by omega
  have hat : (min a (xs.length : Int)).toNat = min a.toNat xs.length := by omega
  rw [hbt, hat]
  have h1 : xs.take (min b.toNat xs.length) = xs.take b.toNat := by
    rcases Nat.le_total b.toNat xs.length with hle | hle
    · rw [Nat.min_eq_left hle]
    · rw [Nat.min_eq_right hle, List.take_length, List.take_of_length_le hle]
  rw [h1]
  rcases Nat.le_total a.toNat xs.length with hle | hle
  · rw [Nat.min_eq_left hle]
  · rw [Nat.min_eq_right hle, List.drop_eq_nil_of_le, List.drop_eq_nil_of_le]
    · simp only [List.length_take]
      omega
    · simp only [List.length_take]
      omega

lemma drop_take_append_drop {α : Type} (xs : List α) (lo hi : Nat)
    (h1 : lo ≤ hi) (h2 : hi ≤ xs.length) :
    ((xs.take hi).drop lo) ++ xs.drop hi = xs.drop lo := by
  conv_rhs => rw [← List.take_append_drop hi xs, List.drop_append_eq_append_drop,
    List.length_take, Nat.min_eq_left h2, Nat.sub_eq_zero_of_le h1, List.drop_zero]

lemma charLoop_partition (text : List Char) (chunkSize : Int) (hcs : 0 < chunkSize) :
    ∀ (fuel : Nat) (start : Int) (i : Nat), 0 ≤ start →
      ((text.length : Int) - start).toNat < fuel →
      ∃ cs, charLoop text chunkSize 0 fuel start i = some cs ∧
        (cs.map DocumentChunk.content).flatten = text.drop start.toNat ∧
        ∀ c ∈ cs, c.content = pySlice text c.start_index c.end_index := by
  intro fuel
  induction fuel with
  | zero => intro start i h0 hf; exact absurd hf (by omega)
  | succ f ih =>
    intro start i h0 hf
    by_cases hlt : start < (text.length : Int)
    · have he0 : 0 ≤ min (start + chunkSize) (text.length : Int) := by omega
      obtain ⟨cs', hl1, hl2, hl3⟩ :=
        ih (min (start + chunkSize) (text.length : Int)) (i + 1) (by omega) (by omega)
      refine ⟨{ id := i,
                content := pySlice text start (min (start + chunkSize) (text.length : Int)),
                start_index := start,
                end_index := min (start + chunkSize) (text.length : Int),
                length := (pySlice text start
                  (min (start + chunkSize) (text.length : Int))).length,
                metadata := [("strategy", MetaVal.str "character")] } :: cs', ?_, ?_, ?_⟩
      · simp only [charLoop, if_pos hlt]
        rw [sub_zero, hl1]
        rfl
      · simp only [List.map_cons, List.flatten_cons]
        rw [hl2, pySlice_nonneg text start (min (start + chunkSize) (text.length : Int)) h0 he0]
        exact drop_take_append_drop text start.toNat
          (min (start + chunkSize) (text.length : Int)).toNat (by omega) (by omega)
      · intro c hc
        rcases List.mem_cons.mp hc with hc | hc
        · subst hc; rfl
        · exact hl3 c hc
    · refine ⟨[], ?_, ?_, ?_⟩
      · simp [charLoop, hlt]
      · simp only [List.map_nil, List.flatten_nil]
        exact (List.drop_eq_nil_of_le (by omega)).symm
      · intro c hc
        simp at hc

/-- C10: for every non-empty text and every positive chunk size (the schema
guarantees `chunk_size ≥ 100`), character chunking with overlap 0 terminates
and partitions the text exactly: the concatenation of the chunk contents in
id order is the original text, and each chunk's content is the original
text restricted to `[start_index, end_index)`. -/
theorem character_zero_overlap_partitions (text : List Char) (chunkSize : Int)
    (hne : text ≠ []) (hpos : 0 < chunkSize) :
    ∃ cs, chunkByCharacter text chunkSize 0 (text.length + 1) = some cs ∧
      (cs.map DocumentChunk.content).flatten = text ∧
      ∀ c ∈ cs, c.content = pySlice text c.start_index c.end_index := by
  obtain ⟨cs, h1, h2, h3⟩ :=
    charLoop_partition text chunkSize hpos (text.length + 1) 0 0 le_rfl (by omega)
  exact ⟨cs, h1, by simpa using h2, h3⟩

/-- Witness for C10 on the two-character text with chunk size 1. -/
theorem character_zero_overlap_partitions_witness :
    ∃ cs, chunkByCharacter textab 1 0 (textab.length + 1) = some cs ∧
      (cs.map DocumentChunk.content).flatten = textab ∧
      ∀ c ∈ cs, c.content = pySlice textab c.start_index c.end_index :=
  character_zero_overlap_partitions textab 1 (by decide) (by decide)
